import Mathlib

/-!
# Verification of the redex predicate/pattern-matching engine (`libredex/Match.h`)

Shallow embedding of the matcher combinator library in `src/libredex/Match.h`:
the arity-indexed `match_t` predicate values, the logical combinators
(`operator!`, `operator&&`, `operator||`, `operator^`), the opcode-family
predicates, the class-member quantifiers, the `in`/`as_class`/`opcode_method`
projections and the `has_opcodes` sliding-window sequence matcher.

Entities (classes, methods, instructions, types) are modelled structurally,
keeping exactly the observations the matchers consult.  C-string comparison
(`strcmp` over `c_str()`) is modelled faithfully, including its termination at
the first NUL character.  The `always_assert` in `opcode_method` is modelled by
an `Option Bool` result (`none` = fatal assertion failure).
-/

set_option autoImplicit false

/-- Opcode tags.  The engine only discriminates the families used by the
predicates under verification; `NOP`, `RETURN_VOID`, `CONST_STRING` and
`THROW` stand in for the remaining (non-invoke, non-new-instance) opcodes. -/
inductive DexOpcode : Type where
  | NOP
  | RETURN_VOID
  | CONST_STRING
  | THROW
  | NEW_INSTANCE
  | INVOKE_VIRTUAL
  | INVOKE_SUPER
  | INVOKE_DIRECT
  | INVOKE_STATIC
  | INVOKE_INTERFACE
  | INVOKE_VIRTUAL_RANGE
  | INVOKE_SUPER_RANGE
  | INVOKE_DIRECT_RANGE
  | INVOKE_STATIC_RANGE
  | INVOKE_INTERFACE_RANGE
  deriving DecidableEq, Repr

mutual

/-- A method: a declared name and an optional instruction body
(`get_code()` returns null for native/abstract methods).  The body is the
linear, emission-ordered instruction stream the `InstructionIterable`
flattening produces. -/
inductive DexMethod : Type where
  | mk : List Char → Option (List IRInstruction) → DexMethod

/-- An instruction: an opcode tag and an optional method operand
(`has_method()` / `get_method()`; only invoke-family instructions carry one). -/
inductive IRInstruction : Type where
  | mk : DexOpcode → Option DexMethod → IRInstruction

end

/-- `DexMethod::get_name()` (as a character list, the way `c_str` sees it). -/
def DexMethod.get_name : DexMethod → List Char
  | .mk n _ => n

/-- `DexMethod::get_code()`. -/
def DexMethod.get_code : DexMethod → Option (List IRInstruction)
  | .mk _ c => c

/-- `IRInstruction::opcode()`. -/
def IRInstruction.opcode : IRInstruction → DexOpcode
  | .mk op _ => op

/-- `IRInstruction::get_method()` — the method operand, when present. -/
def IRInstruction.get_method : IRInstruction → Option DexMethod
  | .mk _ meth => meth

/-- `IRInstruction::has_method()` — whether the instruction carries a method
operand. -/
def IRInstruction.has_method (insn : IRInstruction) : Bool :=
  insn.get_method.isSome

/-- A class: qualified name, virtual-method list and direct-method list
(`get_vmethods()` / `get_dmethods()`). -/
structure DexClass : Type where
  name : List Char
  vmethods : List DexMethod
  dmethods : List DexMethod

/-- A type reference.  Modelled from the spec: the Entity Model's resolution
("looking up a Type's corresponding Class definition; may fail for
external/unknown types") is carried as the optional resolved class. -/
structure DexType : Type where
  name : List Char
  cls : Option DexClass

/-- Modelled from the spec: `type_class` is declared in `DexClass.h`, which is
not under `src/`; per the spec it resolves a Type to its Class definition and
may fail (return null) for external/unknown types. -/
def type_class (t : DexType) : Option DexClass :=
  t.cls

/-- Modelled from the spec: `is_invoke` is declared in `DexUtil.h`/`IROpcode`,
not under `src/`; per the spec it recognises "any invoke-family opcode"
(the five invoke kinds and their /range encodings). -/
def is_invoke : DexOpcode → Bool
  | .INVOKE_VIRTUAL => true
  | .INVOKE_SUPER => true
  | .INVOKE_DIRECT => true
  | .INVOKE_STATIC => true
  | .INVOKE_INTERFACE => true
  | .INVOKE_VIRTUAL_RANGE => true
  | .INVOKE_SUPER_RANGE => true
  | .INVOKE_DIRECT_RANGE => true
  | .INVOKE_STATIC_RANGE => true
  | .INVOKE_INTERFACE_RANGE => true
  | _ => false

namespace m

/-- Nullary specialization of the N-ary `match_t`: an evaluation function and
no bound parameters. -/
structure match0 (T : Type) : Type where
  fn : T → Bool

/-- `match_t<T, P, 0>::matches`. -/
def match0.matches {T : Type} (mt : match0 T) (t : T) : Bool :=
  mt.fn t

/-- Unary specialization of the N-ary `match_t`: an evaluation function and
one bound parameter, stored by value (`P0_t p0`). -/
structure match1 (T P0 : Type) : Type where
  fn : T → P0 → Bool
  p0 : P0

/-- `match_t<T, P, 1>::matches` — applies the stored function to the subject
and the stored parameter. -/
def match1.matches {T P0 : Type} (mt : match1 T P0) (t : T) : Bool :=
  mt.fn t mt.p0

/-- Binary specialization of the N-ary `match_t`: an evaluation function and
two bound parameters, stored by value. -/
structure match2 (T P0 P1 : Type) : Type where
  fn : T → P0 → P1 → Bool
  p0 : P0
  p1 : P1

/-- `match_t<T, P, 2>::matches`. -/
def match2.matches {T P0 P1 : Type} (mt : match2 T P0 P1) (t : T) : Bool :=
  mt.fn t mt.p0 mt.p1

/-- A `match_t` whose evaluation can hit an `always_assert`: `none` models the
fatal assertion failure, `some b` the returned verdict. -/
structure matchA1 (T P0 : Type) : Type where
  fn : T → P0 → Option Bool
  p0 : P0

/-- Evaluation of a `matchA1` matcher. -/
def matchA1.matches {T P0 : Type} (mt : matchA1 T P0) (t : T) : Option Bool :=
  mt.fn t mt.p0

/-- `operator!` — stores the subordinate matcher (of arbitrary representation
`A`, with evaluation `mA`, mirroring the template parameter `match_t<T, P0>`)
and negates its verdict. -/
def not_m {T A : Type} (mA : A → T → Bool) (pred0 : A) : match1 T A :=
  ⟨fun t p0 => !(mA p0 t), pred0⟩

/-- `operator||`. -/
def or_m {T A B : Type} (mA : A → T → Bool) (mB : B → T → Bool)
    (pred0 : A) (pred1 : B) : match2 T A B :=
  ⟨fun t p0 p1 => mA p0 t || mB p1 t, pred0, pred1⟩

/-- `operator&&`. -/
def and_m {T A B : Type} (mA : A → T → Bool) (mB : B → T → Bool)
    (pred0 : A) (pred1 : B) : match2 T A B :=
  ⟨fun t p0 p1 => mA p0 t && mB p1 t, pred0, pred1⟩

/-- `operator^`. -/
def xor_m {T A B : Type} (mA : A → T → Bool) (mB : B → T → Bool)
    (pred0 : A) (pred1 : B) : match2 T A B :=
  ⟨fun t p0 p1 => Bool.xor (mA p0 t) (mB p1 t), pred0, pred1⟩

/-- `any<T>()` — matches every subject unconditionally. -/
def any (T : Type) : match0 T :=
  ⟨fun _ => true⟩

/-- The NUL character terminating a C string. -/
def nul : Char :=
  Char.ofNat 0

/-- `!strcmp(a.c_str(), b.c_str())` — equality of C strings: compares
character by character, and stops (declaring equality) at the first NUL on
either side; the end of the list is where `c_str()` places the terminator. -/
def strcmp_eq : List Char → List Char → Bool
  | [], [] => true
  | [], b :: _ => decide (b = nul)
  | a :: _, [] => decide (a = nul)
  | a :: as, b :: bs =>
    if a = b then (if a = nul then true else strcmp_eq as bs) else false

/-- The portion of a string a C-string consumer sees: everything before the
first NUL character. -/
def truncAtNul (s : List Char) : List Char :=
  s.takeWhile (fun c => decide (c ≠ nul))

/-- `named(name)` — generic over the subject's `get_name()` accessor, compares
the subject's name against the bound string with `strcmp`. -/
def named {T : Type} (get_name : T → List Char) (name : List Char) :
    match1 T (List Char) :=
  ⟨fun t n => strcmp_eq (get_name t) n, name⟩

/-- `new_instance(p)` — nested predicate evaluated only when the opcode is
`OPCODE_NEW_INSTANCE`; otherwise false. -/
def new_instance (predicate : IRInstruction → Bool) :
    match1 IRInstruction (IRInstruction → Bool) :=
  ⟨fun insn p =>
    if insn.opcode = DexOpcode.NEW_INSTANCE then p insn else false,
   predicate⟩

/-- `invoke_direct(p)` — nested predicate evaluated only when the opcode is
`OPCODE_INVOKE_DIRECT` or `OPCODE_INVOKE_DIRECT_RANGE`; otherwise false. -/
def invoke_direct (predicate : IRInstruction → Bool) :
    match1 IRInstruction (IRInstruction → Bool) :=
  ⟨fun insn p =>
    if insn.opcode = DexOpcode.INVOKE_DIRECT ∨
        insn.opcode = DexOpcode.INVOKE_DIRECT_RANGE then p insn else false,
   predicate⟩

/-- `invoke_static(p)` — nested predicate evaluated only when the opcode is
`OPCODE_INVOKE_STATIC` or `OPCODE_INVOKE_STATIC_RANGE`; otherwise false. -/
def invoke_static (predicate : IRInstruction → Bool) :
    match1 IRInstruction (IRInstruction → Bool) :=
  ⟨fun insn p =>
    if insn.opcode = DexOpcode.INVOKE_STATIC ∨
        insn.opcode = DexOpcode.INVOKE_STATIC_RANGE then p insn else false,
   predicate⟩

/-- `invoke(p)` — `is_invoke(insn->opcode()) && p.matches(insn)`. -/
def invoke (predicate : IRInstruction → Bool) :
    match1 IRInstruction (IRInstruction → Bool) :=
  ⟨fun insn p => is_invoke insn.opcode && p insn, predicate⟩

/-- `opcode_method(p)` — `always_assert(insn->has_method())` then applies the
nested method predicate to `insn->get_method()`.  The assertion failure is
modelled by `none`. -/
def opcode_method (predicate : DexMethod → Bool) :
    matchA1 IRInstruction (DexMethod → Bool) :=
  ⟨fun insn p =>
    match insn.get_method with
    | some meth => some (p meth)
    | none => none,
   predicate⟩

/-- `as_class(p)` — `auto cls = type_class(t); return cls && p.matches(cls);`. -/
def as_class (predicate : DexClass → Bool) :
    match1 DexType (DexClass → Bool) :=
  ⟨fun t p =>
    match type_class t with
    | some cls => p cls
    | none => false,
   predicate⟩

/-- `in(container)` — the container is received by const reference but stored
by value in the match object (`P0_t p0` with `P0_t = C`), so the predicate
holds a copy made at construction; evaluation tests
`c.find(const_cast<T*>(t)) != c.end()` on that copy. -/
def in_m {T : Type} [BEq T] (container : List T) : match1 T (List T) :=
  ⟨fun t c => c.contains t, container⟩

/-- Loop body of `all_vmethods` / `all_dmethods`: bail out false at the first
member the nested predicate rejects, true when the list is exhausted. -/
def allLoop {M : Type} (p : M → Bool) : List M → Bool
  | [] => true
  | v :: vs => if !(p v) then false else allLoop p vs

/-- Loop body of `exactly_n_*`: count the members the nested predicate
accepts. -/
def countLoop {M : Type} (p : M → Bool) : List M → Nat
  | [] => 0
  | v :: vs => (if p v then 1 else 0) + countLoop p vs

/-- Loop body of `at_least_n_*`: running count `c`, incremented on a match,
returning true as soon as `c >= n` is observed *inside* the loop; false when
the list ends. -/
def atLeastLoop {M : Type} (p : M → Bool) (n : Nat) : List M → Nat → Bool
  | [], _ => false
  | v :: vs, c =>
    let c' := if p v then c + 1 else c
    if c' ≥ n then true else atLeastLoop p n vs c'

/-- `all_vmethods(p)`. -/
def all_vmethods (predicate : DexMethod → Bool) :
    match1 DexClass (DexMethod → Bool) :=
  ⟨fun cls p => allLoop p cls.vmethods, predicate⟩

/-- `exactly_n_vmethods(n, p)`. -/
def exactly_n_vmethods (number : Nat) (predicate : DexMethod → Bool) :
    match2 DexClass Nat (DexMethod → Bool) :=
  ⟨fun cls n p => decide (countLoop p cls.vmethods = n), number, predicate⟩

/-- `at_least_n_dmethods(n, p)`. -/
def at_least_n_dmethods (num : Nat) (predicate : DexMethod → Bool) :
    match2 DexClass Nat (DexMethod → Bool) :=
  ⟨fun cls n p => atLeastLoop p n cls.dmethods 0, num, predicate⟩

/-- Default instruction, standing in for the (never consulted) out-of-range
behaviour of `insns.at(at)`. -/
def defaultInsn : IRInstruction :=
  IRInstruction.mk DexOpcode.NOP none

/-- `insns_matcher<T, N>::matches_at` — the compile-time-recursive sequence
step: predicate `j` of the remaining list against instruction `i + j`, the
empty-list specialization returning true. -/
def matches_at (insns : List IRInstruction) :
    Nat → List (IRInstruction → Bool) → Bool
  | _, [] => true
  | i, p :: ps => p (insns.getD i defaultInsn) && matches_at insns (i + 1) ps

/-- The `for (size_t i = 0; i <= insns.size() - N; ++i)` loop of
`has_opcodes`, with `k` the number of remaining iterations: return true at the
first offset where `matches_at` succeeds, false when the loop ends. -/
def scanLoop (insns : List IRInstruction)
    (t : List (IRInstruction → Bool)) : Nat → Nat → Bool
  | _, 0 => false
  | i, k + 1 => if matches_at insns i t then true else scanLoop insns t (i + 1) k

/-- `has_opcodes(tuple)` — the heterogeneous predicate tuple is modelled as a
list of instruction predicates.  No body: false.  Fewer instructions than
predicates: false.  Otherwise scan the `insns.size() - N + 1` start offsets. -/
def has_opcodes (tuple : List (IRInstruction → Bool)) :
    match1 DexMethod (List (IRInstruction → Bool)) :=
  ⟨fun meth t =>
    match meth.get_code with
    | some insns =>
      if insns.length < t.length then false
      else scanLoop insns t 0 (insns.length - t.length + 1)
    | none => false,
   tuple⟩

end m

/-! Concrete entities used as evaluation points by the witnesses. -/

/-- A method named `foo` with no body. -/
def methFoo : DexMethod :=
  DexMethod.mk ['f', 'o', 'o'] none

/-- An instruction with no method operand. -/
def insnNop : IRInstruction :=
  IRInstruction.mk DexOpcode.NOP none

/-- A `new-instance` instruction. -/
def insnNew : IRInstruction :=
  IRInstruction.mk DexOpcode.NEW_INSTANCE none

/-- An `invoke-direct` instruction whose method operand is `methFoo`. -/
def insnDir : IRInstruction :=
  IRInstruction.mk DexOpcode.INVOKE_DIRECT (some methFoo)

/-- An `invoke-static` instruction. -/
def insnStat : IRInstruction :=
  IRInstruction.mk DexOpcode.INVOKE_STATIC none

/-- The always-true method predicate (`any<DexMethod>()`, unbundled). -/
def pTrueMeth : DexMethod → Bool :=
  fun _ => true

/-- The always-true instruction predicate. -/
def pTrueInsn : IRInstruction → Bool :=
  fun _ => true

/-- A class with no methods at all. -/
def emptyClass : DexClass :=
  ⟨['C'], [], []⟩

/-- A class resolvable from `tyRes`. -/
def clsD : DexClass :=
  ⟨['D'], [], [methFoo]⟩

/-- A type that resolves to `clsD`. -/
def tyRes : DexType :=
  ⟨['D'], some clsD⟩

/-- An external/unknown type that does not resolve to a class. -/
def tyUnres : DexType :=
  ⟨['X'], none⟩

/-- The always-true class predicate. -/
def pTrueCls : DexClass → Bool :=
  fun _ => true

/-- The contents of a shared entity container at the moment the `in(...)`
predicate is constructed: empty. -/
def containerBefore : List Nat :=
  []

/-- The contents of the same container after entity `42` has been added —
mutation that happens after predicate construction, before evaluation. -/
def containerAfter : List Nat :=
  42 :: containerBefore

/-- The `in(...)` predicate as constructed before the mutation: because
`match_t<T, P, 1>` stores its bound parameter by value, the match object keeps
the copy made from `containerBefore` even after the original container grows
to `containerAfter`. -/
def inPredAtConstruction : m.match1 Nat (List Nat) :=
  m.in_m containerBefore

/-- A query string whose NUL-terminated prefix is `foo`: from `strcmp`'s
point of view it is indistinguishable from `foo`. -/
def nFooNul : List Char :=
  ['f', 'o', 'o', m.nul, 'b']

/-! ## Helper lemmas -/

/-- `strcmp` equality is equality of the NUL-terminated prefixes. -/
theorem strcmp_eq_iff (a : List Char) :
    ∀ b, m.strcmp_eq a b = true ↔ m.truncAtNul a = m.truncAtNul b := by
  induction a with
  | nil =>
    intro b
    cases b with
    | nil => simp [m.strcmp_eq, m.truncAtNul]
    | cons c cs =>
      by_cases hc : c = m.nul <;>
        simp [m.strcmp_eq, m.truncAtNul, List.takeWhile_cons, hc]
  | cons a as ih =>
    intro b
    cases b with
    | nil =>
      by_cases ha : a = m.nul <;>
        simp [m.strcmp_eq, m.truncAtNul, List.takeWhile_cons, ha]
    | cons c cs =>
      by_cases hac : a = c
      · subst hac
        by_cases ha : a = m.nul
        · simp [m.strcmp_eq, m.truncAtNul, List.takeWhile_cons, ha]
        · simpa [m.strcmp_eq, m.truncAtNul, List.takeWhile_cons, ha]
            using ih cs
      · by_cases ha : a = m.nul <;> by_cases hc : c = m.nul <;>
          simp_all [m.strcmp_eq, m.truncAtNul, List.takeWhile_cons]

/-- The recursive `insns_matcher` step succeeds from offset `i` iff every
predicate `j` of the list accepts instruction `i + j`. -/
theorem matches_at_iff (t : List (IRInstruction → Bool)) :
    ∀ (insns : List IRInstruction) (i : Nat),
      m.matches_at insns i t = true ↔
        ∀ j, j < t.length →
          (t.getD j (fun _ => false)) (insns.getD (i + j) m.defaultInsn) = true := by
  induction t with
  | nil =>
    intro insns i
    simp [m.matches_at]
  | cons p ps ih =>
    intro insns i
    simp only [m.matches_at, Bool.and_eq_true, ih insns (i + 1)]
    constructor
    · rintro ⟨h0, hrest⟩ j hj
      cases j with
      | zero => simpa using h0
      | succ jj =>
        have hjj : jj < ps.length := by
          simpa [Nat.succ_lt_succ_iff] using hj
        have := hrest jj hjj
        simpa [Nat.add_assoc, Nat.add_comm 1 jj] using this
    · intro h
      refine ⟨by simpa using h 0 (by simp), ?_⟩
      intro j hj
      have := h (j + 1) (by simpa [Nat.succ_lt_succ_iff] using hj)
      simpa [Nat.add_assoc, Nat.add_comm 1 j] using this

/-- The `has_opcodes` scan loop succeeds iff some offset within its iteration
budget satisfies `matches_at`. -/
theorem scanLoop_iff (insns : List IRInstruction)
    (t : List (IRInstruction → Bool)) :
    ∀ (k i : Nat),
      m.scanLoop insns t i k = true ↔
        ∃ d, d < k ∧ m.matches_at insns (i + d) t = true := by
  intro k
  induction k with
  | zero =>
    intro i
    simp [m.scanLoop]
  | succ k ih =>
    intro i
    cases hx : m.matches_at insns i t with
    | true =>
      simp only [m.scanLoop, hx, if_true]
      constructor
      · intro _
        exact ⟨0, Nat.succ_pos k, by simpa using hx⟩
      · intro _
        trivial
    | false =>
      simp only [m.scanLoop, hx, Bool.false_eq_true, if_false, ih (i + 1)]
      constructor
      · rintro ⟨d, hd, hm⟩
        exact ⟨d + 1, by omega, by
          simpa [Nat.add_assoc, Nat.add_comm 1 d] using hm⟩
      · rintro ⟨d, hd, hm⟩
        cases d with
        | zero =>
          exfalso
          rw [Nat.add_zero] at hm
          rw [hx] at hm
          exact Bool.false_ne_true hm
        | succ dd =>
          exact ⟨dd, by omega, by
            simpa [Nat.add_assoc, Nat.add_comm 1 dd] using hm⟩

/-! ## Claim theorems -/

/-- Claim C1: `has_opcodes` returns true iff the method has an attached code
body whose linear instruction stream has at least `K` instructions and some
start offset `i` with `i + K ≤ length` at which predicate `j` accepts
instruction `i + j` for every `j < K`; in particular it is false when there is
no code body or fewer than `K` instructions. -/
theorem has_opcodes_spec (t : List (IRInstruction → Bool)) (meth : DexMethod) :
    (m.has_opcodes t).matches meth = true ↔
      ∃ insns, meth.get_code = some insns ∧
        t.length ≤ insns.length ∧
        ∃ i, i + t.length ≤ insns.length ∧
          ∀ j, j < t.length →
            (t.getD j (fun _ => false)) (insns.getD (i + j) m.defaultInsn)
              = true := by
  cases hc : meth.get_code with
  | none =>
    simp [m.has_opcodes, m.match1.matches, hc]
  | some insns =>
    simp only [m.has_opcodes, m.match1.matches, hc, Option.some.injEq]
    by_cases hlen : insns.length < t.length
    · have hnle : ¬ t.length ≤ insns.length := Nat.not_le.mpr hlen
      simp [hlen, hnle]
    · have hle : t.length ≤ insns.length := Nat.le_of_not_lt hlen
      simp only [hlen, if_false, scanLoop_iff insns t]
      constructor
      · rintro ⟨d, hd, hm⟩
        refine ⟨insns, rfl, hle, d, by omega, ?_⟩
        intro j hj
        have := (matches_at_iff t insns (0 + d)).mp hm j hj
        simpa using this
      · rintro ⟨insns2, h2, -, i, hi, hall⟩
        cases h2
        refine ⟨i, by omega, ?_⟩
        rw [matches_at_iff t insns (0 + i)]
        intro j hj
        simpa using hall j hj

/-- Claim C2 (failing-input evaluation): `at_least_n_dmethods(0, p)` evaluated
on a class whose direct-method list is empty returns false — the threshold
check `c >= n` sits inside the loop body, so it is never reached when the loop
has no iterations, and the fall-through result is false. -/
theorem at_least_zero_dmethods_empty :
    (m.at_least_n_dmethods 0 pTrueMeth).matches emptyClass = false :=
  rfl

/-- Claim C3 (counterexample): `in(container)` does not observe the container
live.  The container is empty at construction; entity `42` is added
afterwards (`containerAfter`), yet evaluating the constructed predicate
against `42` returns false, because the match object stores a by-value copy of
the container made at construction time. -/
theorem in_live_observation_counterexample :
    inPredAtConstruction.matches 42 = false ∧
    containerAfter.contains 42 = true :=
  ⟨rfl, rfl⟩

/-- Claim C3 (amended): `in(container)` snapshots the container at
construction — evaluation tests membership in the copy of the container taken
when the predicate was built, so mutations of the original container after
construction are never observed. -/
theorem in_snapshot_spec {T : Type} [BEq T] (container : List T) (t : T) :
    (m.in_m container).matches t = container.contains t :=
  rfl

/-- Claim C4: the logical combinators implement the boolean algebra: `not` is
negation, `and` conjunction, `or` disjunction, and `xor` is true iff exactly
one operand matches. -/
theorem combinators_spec {T A B : Type} (mA : A → T → Bool) (mB : B → T → Bool)
    (p : A) (q : B) (s : T) :
    ((m.not_m mA p).matches s = true ↔ ¬ mA p s = true) ∧
    ((m.and_m mA mB p q).matches s = true ↔ (mA p s = true ∧ mB q s = true)) ∧
    ((m.or_m mA mB p q).matches s = true ↔ (mA p s = true ∨ mB q s = true)) ∧
    ((m.xor_m mA mB p q).matches s = true ↔
      ((mA p s = true ∧ ¬ mB q s = true) ∨
        (¬ mA p s = true ∧ mB q s = true))) := by
  cases hA : mA p s <;> cases hB : mB q s <;>
    simp [m.not_m, m.and_m, m.or_m, m.xor_m, m.match1.matches,
      m.match2.matches, hA, hB]

/-- Claim C5: evaluating `opcode_method(p)` on an instruction with no method
operand is a fatal assertion failure (modelled as `none`), never a boolean;
under the precondition the result is `p` applied to the referenced method. -/
theorem opcode_method_spec (p : DexMethod → Bool) (insn : IRInstruction) :
    ((m.opcode_method p).matches insn = none ↔ insn.has_method = false) ∧
    (∀ meth, insn.get_method = some meth →
      (m.opcode_method p).matches insn = some (p meth)) := by
  constructor
  · cases h : insn.get_method <;>
      simp [m.opcode_method, m.matchA1.matches, IRInstruction.has_method, h]
  · intro meth h
    simp [m.opcode_method, m.matchA1.matches, h]

/-- Witness for C5: a no-operand instruction trips the assertion (`none`); an
`invoke-direct` carrying `methFoo` yields the nested predicate's verdict. -/
theorem opcode_method_spec_witness :
    (m.opcode_method pTrueMeth).matches insnNop = none ∧
    (m.opcode_method pTrueMeth).matches insnDir = some true :=
  ⟨(opcode_method_spec pTrueMeth insnNop).1.mpr rfl,
   (opcode_method_spec pTrueMeth insnDir).2 methFoo rfl⟩

/-- Claim C6: `as_class(p)` is false — never an error — when the type does not
resolve to a class, and is `p` of the resolved class otherwise. -/
theorem as_class_spec (p : DexClass → Bool) (t : DexType) :
    (type_class t = none → (m.as_class p).matches t = false) ∧
    (∀ cls, type_class t = some cls → (m.as_class p).matches t = p cls) := by
  constructor
  · intro h
    simp [m.as_class, m.match1.matches, h]
  · intro cls h
    simp [m.as_class, m.match1.matches, h]

/-- Witness for C6: the unresolvable type yields false even under the
always-true class predicate; the resolvable one yields the predicate's
verdict. -/
theorem as_class_spec_witness :
    (m.as_class pTrueCls).matches tyUnres = false ∧
    (m.as_class pTrueCls).matches tyRes = true :=
  ⟨(as_class_spec pTrueCls tyUnres).1 rfl,
   (as_class_spec pTrueCls tyRes).2 clsD rfl⟩

/-- Claim C7: each parameterized opcode-family predicate is false whenever the
opcode is outside its family, regardless of the nested predicate, and equals
the nested predicate's verdict when the opcode is in the family. -/
theorem family_preds_spec (p : IRInstruction → Bool) (insn : IRInstruction) :
    (insn.opcode ≠ DexOpcode.NEW_INSTANCE →
      (m.new_instance p).matches insn = false) ∧
    (insn.opcode = DexOpcode.NEW_INSTANCE →
      (m.new_instance p).matches insn = p insn) ∧
    (¬ (insn.opcode = DexOpcode.INVOKE_DIRECT ∨
        insn.opcode = DexOpcode.INVOKE_DIRECT_RANGE) →
      (m.invoke_direct p).matches insn = false) ∧
    ((insn.opcode = DexOpcode.INVOKE_DIRECT ∨
        insn.opcode = DexOpcode.INVOKE_DIRECT_RANGE) →
      (m.invoke_direct p).matches insn = p insn) ∧
    (¬ (insn.opcode = DexOpcode.INVOKE_STATIC ∨
        insn.opcode = DexOpcode.INVOKE_STATIC_RANGE) →
      (m.invoke_static p).matches insn = false) ∧
    ((insn.opcode = DexOpcode.INVOKE_STATIC ∨
        insn.opcode = DexOpcode.INVOKE_STATIC_RANGE) →
      (m.invoke_static p).matches insn = p insn) ∧
    (is_invoke insn.opcode = false → (m.invoke p).matches insn = false) ∧
    (is_invoke insn.opcode = true → (m.invoke p).matches insn = p insn) := by
  refine ⟨?_, ?_, ?_, ?_, ?_, ?_, ?_, ?_⟩ <;> intro h <;>
    simp [m.new_instance, m.invoke_direct, m.invoke_static, m.invoke,
      m.match1.matches, h]

/-- Witness for C7: each family predicate evaluated at an in-family and an
out-of-family instruction under the always-true nested predicate. -/
theorem family_preds_spec_witness :
    (m.new_instance pTrueInsn).matches insnNop = false ∧
    (m.new_instance pTrueInsn).matches insnNew = true ∧
    (m.invoke_direct pTrueInsn).matches insnNop = false ∧
    (m.invoke_direct pTrueInsn).matches insnDir = true ∧
    (m.invoke_static pTrueInsn).matches insnNop = false ∧
    (m.invoke_static pTrueInsn).matches insnStat = true ∧
    (m.invoke pTrueInsn).matches insnNop = false ∧
    (m.invoke pTrueInsn).matches insnDir = true :=
  ⟨(family_preds_spec pTrueInsn insnNop).1 (by decide),
   (family_preds_spec pTrueInsn insnNew).2.1 rfl,
   (family_preds_spec pTrueInsn insnNop).2.2.1 (by decide),
   (family_preds_spec pTrueInsn insnDir).2.2.2.1 (Or.inl rfl),
   (family_preds_spec pTrueInsn insnNop).2.2.2.2.1 (by decide),
   (family_preds_spec pTrueInsn insnStat).2.2.2.2.2.1 (Or.inl rfl),
   (family_preds_spec pTrueInsn insnNop).2.2.2.2.2.2.1 rfl,
   (family_preds_spec pTrueInsn insnDir).2.2.2.2.2.2.2 rfl⟩

/-- Claim C8: for a class whose virtual-method list is empty, `all_vmethods(p)`
is vacuously true for every `p`, and `exactly_n_vmethods(0, p)` is true. -/
theorem empty_vmethods_spec (p : DexMethod → Bool) (cls : DexClass)
    (h : cls.vmethods = []) :
    (m.all_vmethods p).matches cls = true ∧
    (m.exactly_n_vmethods 0 p).matches cls = true := by
  constructor
  · simp [m.all_vmethods, m.match1.matches, h, m.allLoop]
  · simp [m.exactly_n_vmethods, m.match2.matches, h, m.countLoop]

/-- Witness for C8: the concrete empty class. -/
theorem empty_vmethods_spec_witness :
    (m.all_vmethods pTrueMeth).matches emptyClass = true ∧
    (m.exactly_n_vmethods 0 pTrueMeth).matches emptyClass = true :=
  empty_vmethods_spec pTrueMeth emptyClass rfl

/-- Claim C9 (counterexample): `named(n)` does not decide exact
character-for-character equality: the query `['f','o','o',NUL,'b']` differs
from the name `foo`, yet the predicate matches the method named `foo`, because
`strcmp` stops at the first NUL. -/
theorem named_exact_counterexample :
    (m.named DexMethod.get_name nFooNul).matches methFoo = true ∧
    methFoo.get_name ≠ nFooNul := by
  constructor
  · decide
  · decide

/-- Claim C9 (amended): `named(n)` matches an entity iff the entity's name and
`n` agree on their NUL-terminated prefixes (`strcmp` semantics); for names and
queries containing no NUL character this is exact, case-sensitive,
character-for-character equality. -/
theorem named_strcmp_spec {T : Type} (get_name : T → List Char)
    (n : List Char) (e : T) :
    (m.named get_name n).matches e = true ↔
      m.truncAtNul (get_name e) = m.truncAtNul n :=
  strcmp_eq_iff (get_name e) n

/-- Claim C10: with an empty predicate list, `has_opcodes` is true exactly
when the method has an attached code body — the base case of `insns_matcher`
accepts immediately at offset 0, even for a zero-instruction body. -/
theorem has_opcodes_nil_spec (meth : DexMethod) :
    (m.has_opcodes []).matches meth = meth.get_code.isSome := by
  cases hc : meth.get_code with
  | none => simp [m.has_opcodes, m.match1.matches, hc]
  | some insns =>
    simp [m.has_opcodes, m.match1.matches, hc, m.scanLoop, m.matches_at]
